import Mathlib

/-!
Shallow embedding of the training orchestration in `src/train.py` of the
coffee-bean defect classification repository, together with proofs of the
specified properties of its control flow.

The numerically hard work (forward/backward passes, metric computation) is
performed by external libraries and is abstracted here as an oracle
`evals : ℕ → EpochEval` giving, for each epoch of a fold, the scalar metrics
that `train_one_epoch` and `validate` would return.  The orchestration logic
itself — the fold/epoch loops, early stopping, checkpointing, learning-rate
scheduling, telemetry and aggregation — is translated faithfully from the
source.  Python floats are modelled as exact rationals.
-/

set_option maxHeartbeats 1000000

namespace CoffeeTrain

/-- Per-epoch metric bundle: what `train_one_epoch` (loss, acc) and
`validate` (loss, acc, precision, recall, f1) return for one epoch of one
fold (`src/train.py` lines 142-143). -/
structure EpochEval where
  train_loss : ℚ
  train_acc : ℚ
  val_loss : ℚ
  val_acc : ℚ
  val_precision : ℚ
  val_recall : ℚ
  val_f1 : ℚ
deriving DecidableEq

/-- State of the plateau learning-rate scheduler created at
`src/train.py` line 117: `ReduceLROnPlateau(optimizer, mode='min', factor=0.5, patience=3)`. -/
structure PlateauScheduler where
  factor : ℚ
  patience : ℕ
  best : Option ℚ
  num_bad : ℕ
  lr : ℚ
deriving DecidableEq

/-- Modelled from the spec: the plateau scheduler is an external collaborator
(torch `ReduceLROnPlateau`, not part of this repository).  Per the spec, "if
validation loss has not improved for a configured number of consecutive
epochs (a sub-patience, decoupled from the outer early-stopping patience),
halve the learning rate", with "halving at epoch p+1 after p non-improving
validation losses".  A step with a strictly smaller loss than the best seen
resets the bad-epoch counter; otherwise the counter increments, and once it
exceeds the patience the learning rate is multiplied by the factor and the
counter resets. -/
def PlateauScheduler.step (s : PlateauScheduler) (loss : ℚ) : PlateauScheduler :=
  match s.best with
  | none => { s with best := some loss, num_bad := 0 }
  | some b =>
    if loss < b then { s with best := some loss, num_bad := 0 }
    else if s.patience < s.num_bad + 1 then { s with num_bad := 0, lr := s.lr * s.factor }
    else { s with num_bad := s.num_bad + 1 }

/-- Feed a list of validation losses to the scheduler, one per epoch. -/
def PlateauScheduler.stepMany (s : PlateauScheduler) : List ℚ → PlateauScheduler
  | [] => s
  | l :: rest => (s.step l).stepMany rest

/-- Modelled from the spec: `save_checkpoint` lives in `utils.py`, which is
not under `src/`.  Per the spec a checkpoint records "{model parameters,
optimizer state, epoch index, validation accuracy at save time}".  Model and
optimizer state are abstracted as the number of completed training epochs of
the fold (the external numeric state after that many `train_one_epoch`
passes). -/
structure Checkpoint where
  model_state : ℕ
  optim_state : ℕ
  epoch : ℕ
  val_acc : ℚ
deriving DecidableEq

/-- A metric record received by a telemetry backend: either the per-epoch
schema (`log_metrics_to_wandb` / `log_metrics_to_tensorboard`,
`src/train.py` lines 158-161) or the run-level summary
(`src/train.py` lines 237-242). -/
inductive TelemetryEvent where
  | epochMetrics (fold : ℕ) (train_loss train_acc val_loss val_acc val_precision val_recall val_f1 lr : ℚ) (epoch : ℕ)
  | runSummary (avg_val_acc avg_val_f1 avg_val_recall avg_val_precision : ℚ)
deriving DecidableEq

/-- Mutable state of one fold of the training loop
(`src/train.py` lines 121-131 plus the loop-carried Python locals). -/
structure FoldState where
  best_val_acc : ℚ
  epochs_no_improve : ℕ
  early_stop : Bool
  sched : PlateauScheduler
  model_state : ℕ
  optim_state : ℕ
  train_losses : List ℚ
  val_losses : List ℚ
  train_accs : List ℚ
  val_accs : List ℚ
  val_f1s : List ℚ
  val_precisions : List ℚ
  val_recalls : List ℚ
  best_ckpts : List Checkpoint
  events : List TelemetryEvent
  last_epoch : Option ℕ
  last_val_acc : Option ℚ
deriving DecidableEq

/-- Fold initialisation (`src/train.py` lines 104-131): fresh model and
optimizer, scheduler with factor 0.5 and sub-patience 3, `best_val_acc = 0.0`,
`epochs_no_improve = 0`, `early_stop = False`, empty history.  `last_epoch`
and `last_val_acc` model the Python locals `epoch` and `val_acc`, which are
unassigned before the first loop iteration. -/
def initFoldState (lr0 : ℚ) : FoldState :=
  { best_val_acc := 0
    epochs_no_improve := 0
    early_stop := false
    sched := { factor := 1/2, patience := 3, best := none, num_bad := 0, lr := lr0 }
    model_state := 0
    optim_state := 0
    train_losses := []
    val_losses := []
    train_accs := []
    val_accs := []
    val_f1s := []
    val_precisions := []
    val_recalls := []
    best_ckpts := []
    events := []
    last_epoch := none
    last_val_acc := none }

/-- One iteration of the epoch loop body (`src/train.py` lines 138-187):
train one epoch, validate, step the scheduler on the validation loss, append
all metrics to the history, emit the per-epoch telemetry record (to wandb if
`uw`, else to tensorboard, with identical metric arguments), write a "best"
checkpoint on strict improvement of validation accuracy and reset the
no-improvement counter, otherwise increment it; finally set the early-stop
flag when the counter has reached the outer patience. -/
def epochBody (ev : EpochEval) (fold patience : ℕ) (uw : Bool) (e : ℕ) (s : FoldState) : FoldState :=
  let model' := s.model_state + 1
  let optim' := s.optim_state + 1
  let sched' := s.sched.step ev.val_loss
  let evt := TelemetryEvent.epochMetrics fold ev.train_loss ev.train_acc ev.val_loss
    ev.val_acc ev.val_precision ev.val_recall ev.val_f1 sched'.lr e
  let events' := s.events ++ (if uw then [evt] else []) ++ (if uw then [] else [evt])
  let improved := s.best_val_acc < ev.val_acc
  let best' := if improved then ev.val_acc else s.best_val_acc
  let ckpts' := if improved then s.best_ckpts ++ [⟨model', optim', e, ev.val_acc⟩] else s.best_ckpts
  let cnt' := if improved then 0 else s.epochs_no_improve + 1
  let stop' := s.early_stop || decide (patience ≤ cnt')
  { best_val_acc := best'
    epochs_no_improve := cnt'
    early_stop := stop'
    sched := sched'
    model_state := model'
    optim_state := optim'
    train_losses := s.train_losses ++ [ev.train_loss]
    val_losses := s.val_losses ++ [ev.val_loss]
    train_accs := s.train_accs ++ [ev.train_acc]
    val_accs := s.val_accs ++ [ev.val_acc]
    val_f1s := s.val_f1s ++ [ev.val_f1]
    val_precisions := s.val_precisions ++ [ev.val_precision]
    val_recalls := s.val_recalls ++ [ev.val_recall]
    best_ckpts := ckpts'
    events := events'
    last_epoch := some e
    last_val_acc := some ev.val_acc }

/-- The epoch loop `for epoch in range(epochs)` (`src/train.py` lines
133-187).  The fuel `n` is the number of remaining iterations of the range
and `e` the next value of the Python loop variable.  As in the source, the
loop variable is assigned at the start of an iteration and the `break` on
`early_stop` happens before the body runs, so a breaking iteration still
updates `last_epoch`. -/
def runEpochs (evals : ℕ → EpochEval) (fold patience : ℕ) (uw : Bool) : ℕ → ℕ → FoldState → FoldState
  | 0, _, s => s
  | n + 1, e, s =>
    if s.early_stop then { s with last_epoch := some e }
    else runEpochs evals fold patience uw n (e + 1) (epochBody (evals e) fold patience uw e s)

/-- State of one fold after its epoch loop has finished. -/
def foldFinalState (evals : ℕ → EpochEval) (fold epochs patience : ℕ) (uw : Bool) (lr0 : ℚ) : FoldState :=
  runEpochs evals fold patience uw epochs 0 (initFoldState lr0)

/-- Arithmetic mean as computed by `np.mean` on a non-empty list (Lean's
division by zero makes the empty case 0 where numpy yields NaN; every use in
a completed run is on a non-empty list). -/
def npMean (l : List ℚ) : ℚ := l.sum / (l.length : ℚ)

/-- Result record of one fold (`src/train.py` lines 194-218): the entry
appended to `fold_results`, the per-fold metric averages appended to the
run-level lists, the single "final" checkpoint, the "best" checkpoints in
write order, the telemetry records emitted during the fold, and the terminal
early-stopping state. -/
structure FoldResult where
  fold : ℕ
  best_val_acc : ℚ
  train_losses : List ℚ
  val_losses : List ℚ
  train_accs : List ℚ
  val_accs : List ℚ
  val_f1s : List ℚ
  val_precisions : List ℚ
  val_recalls : List ℚ
  avg_val_f1 : ℚ
  avg_val_recall : ℚ
  avg_val_precision : ℚ
  final_ckpt : Checkpoint
  best_ckpts : List Checkpoint
  events : List TelemetryEvent
  early_stop : Bool
  epochs_no_improve : ℕ
deriving DecidableEq

/-- One fold of `train` (`src/train.py` lines 100-218).  After the epoch
loop, the per-fold averages are computed with `np.mean`, the fold results are
recorded, and the "final" checkpoint is written from the Python locals
`epoch` and `val_acc` (line 216).  If the loop body never ran, those locals
were never assigned and the reference faults (Python `NameError` /
`UnboundLocalError`), which the embedding reports as an error. -/
def runFold (evals : ℕ → EpochEval) (fold epochs patience : ℕ) (uw : Bool) (lr0 : ℚ) : Except String FoldResult :=
  let s := foldFinalState evals fold epochs patience uw lr0
  match s.last_epoch, s.last_val_acc with
  | some e, some a =>
    .ok { fold := fold + 1
          best_val_acc := s.best_val_acc
          train_losses := s.train_losses
          val_losses := s.val_losses
          train_accs := s.train_accs
          val_accs := s.val_accs
          val_f1s := s.val_f1s
          val_precisions := s.val_precisions
          val_recalls := s.val_recalls
          avg_val_f1 := npMean s.val_f1s
          avg_val_recall := npMean s.val_recalls
          avg_val_precision := npMean s.val_precisions
          final_ckpt := ⟨s.model_state, s.optim_state, e, a⟩
          best_ckpts := s.best_ckpts
          events := s.events
          early_stop := s.early_stop
          epochs_no_improve := s.epochs_no_improve }
  | _, _ => .error "NameError: local variable referenced before assignment"

/-- Fold iteration of `train` (`src/train.py` line 100): run each fold in
order, propagating any fault. -/
def runFoldsAux (epochs patience : ℕ) (uw : Bool) (lr0 : ℚ) : List (ℕ → EpochEval) → ℕ → Except String (List FoldResult)
  | [], _ => .ok []
  | f :: rest, i =>
    match runFold f i epochs patience uw lr0 with
    | .error msg => .error msg
    | .ok r =>
      match runFoldsAux epochs patience uw lr0 rest (i + 1) with
      | .error msg => .error msg
      | .ok rs => .ok (r :: rs)

/-- Result of a whole `train` run: per-fold results, the four run-level
averages (`src/train.py` lines 220-234), and the metric records received by
the active telemetry backend over the run. -/
structure RunResult where
  fold_results : List FoldResult
  avg_val_acc : ℚ
  avg_val_f1 : ℚ
  avg_val_recall : ℚ
  avg_val_precision : ℚ
  events : List TelemetryEvent
deriving DecidableEq

/-- The `train` function (`src/train.py` lines 54-247), with the external
dataset and model abstracted away: `folds` carries one metric oracle per
fold.  The run-level average accuracy is the mean of the per-fold best
accuracies; F1/recall/precision run-level averages are means of the per-fold
whole-history means.  Under wandb (`uw = true`) the run summary is logged
once at run end (lines 236-243); under tensorboard the writer is merely
closed (line 245) and no summary record is emitted. -/
def train (folds : List (ℕ → EpochEval)) (epochs patience : ℕ) (uw : Bool) (lr0 : ℚ) : Except String RunResult :=
  match runFoldsAux epochs patience uw lr0 folds 0 with
  | .error msg => .error msg
  | .ok rs =>
    let avg_val_acc := npMean (rs.map (fun r => r.best_val_acc))
    let avg_val_f1 := npMean (rs.map (fun r => r.avg_val_f1))
    let avg_val_recall := npMean (rs.map (fun r => r.avg_val_recall))
    let avg_val_precision := npMean (rs.map (fun r => r.avg_val_precision))
    let epochEvents := (rs.map (fun r => r.events)).flatten
    let events := epochEvents ++
      (if uw then [TelemetryEvent.runSummary avg_val_acc avg_val_f1 avg_val_recall avg_val_precision] else [])
    .ok { fold_results := rs
          avg_val_acc := avg_val_acc
          avg_val_f1 := avg_val_f1
          avg_val_recall := avg_val_recall
          avg_val_precision := avg_val_precision
          events := events }

/-- The fixed supported architecture set (`src/train.py` line 265). -/
def all_models : List String :=
  ["efficientnet", "resnet50", "mobilenetv3", "densenet121", "vit", "convnext", "regnet"]

/-- Sum of squared deviations from `m`. -/
def sqSum (m : ℚ) (l : List ℚ) : ℚ := (l.map (fun x => (x - m) * (x - m))).sum

/-- One-way ANOVA F-statistic over the given groups of samples:
between-group mean square over within-group mean square. -/
def fStat (groups : List (List ℚ)) : ℚ :=
  let k : ℚ := (groups.length : ℚ)
  let n : ℚ := ((groups.map (fun g => g.length)).sum : ℚ)
  let gm : ℚ := (groups.map List.sum).sum / n
  let ssb : ℚ := (groups.map (fun g => (g.length : ℚ) * (npMean g - gm) * (npMean g - gm))).sum
  let ssw : ℚ := (groups.map (fun g => sqSum (npMean g) g)).sum
  (ssb / (k - 1)) / (ssw / (n - k))

/-- Modelled from the spec: surrogate for the F-distribution tail
probability, which the external statistics library computes.  It is a
computable function of the F-statistic lying in [0, 1] and decreasing in F,
as the spec requires of the p-value ("returning a p-value in [0,1]"). -/
def pSurrogate (f : ℚ) : ℚ := 1 / (1 + max 0 f)

/-- Modelled from the spec: `perform_anova` lives in `anova_test.py`, which
is not under `src/`.  Per the spec it runs a one-way ANOVA "over accuracy
samples pooled per architecture across folds and epochs, returning a p-value
in [0,1]" and "a human-readable verdict string (the significance threshold,
e.g. 0.05, must be fixed)". -/
def perform_anova (accuracies : List (String × List (List ℚ))) : ℚ × ℚ × String :=
  let groups := accuracies.map (fun pr => pr.2.flatten)
  let f := fStat groups
  let p := pSurrogate f
  let verdict :=
    if p < 1/20 then "Significant difference between models (p < 0.05)"
    else "No significant difference between models (p >= 0.05)"
  (f, p, verdict)

/-- Outcome of the "train all" mode (`src/train.py` lines 267-317):
per-model run results in training order, the pooled per-architecture
accuracy samples handed to the ANOVA, and the ANOVA outputs. -/
structure AllResult where
  runs : List (String × RunResult)
  accuracies : List (String × List (List ℚ))
  f_stat : ℚ
  p_value : ℚ
  anova_result : String
deriving DecidableEq

/-- Train each architecture of the given list once, in order
(`src/train.py` lines 275-296). -/
def mainAllAux (oracle : String → List (ℕ → EpochEval)) (epochs patience : ℕ) (uw : Bool) (lr0 : ℚ) : List String → Except String (List (String × RunResult))
  | [] => .ok []
  | name :: rest =>
    match train (oracle name) epochs patience uw lr0 with
    | .error msg => .error msg
    | .ok r =>
      match mainAllAux oracle epochs patience uw lr0 rest with
      | .error msg => .error msg
      | .ok rs => .ok ((name, r) :: rs)

/-- The "train all" mode of `main` (`src/train.py` lines 267-317): invoke
`train` once per architecture in `all_models`, collect for each architecture
the full per-fold, per-epoch validation-accuracy histories
(`accuracies[model_name] = [result["val_accs"] for result in fold_results]`,
line 303), and run the ANOVA on them (line 314). -/
def mainAll (oracle : String → List (ℕ → EpochEval)) (epochs patience : ℕ) (uw : Bool) (lr0 : ℚ) : Except String AllResult :=
  match mainAllAux oracle epochs patience uw lr0 all_models with
  | .error msg => .error msg
  | .ok runs =>
    let accuracies := runs.map (fun pr => (pr.1, pr.2.fold_results.map (fun r => r.val_accs)))
    let res := perform_anova accuracies
    .ok { runs := runs
          accuracies := accuracies
          f_stat := res.1
          p_value := res.2.1
          anova_result := res.2.2 }

/-! ### Concrete fixtures

Small metric oracles and run outcomes used to evaluate the definitions on
explicit inputs. -/

/-- Oracle with every metric constantly 1. -/
def wEvC : ℕ → EpochEval := fun _ =>
  { train_loss := 1, train_acc := 1, val_loss := 1, val_acc := 1,
    val_precision := 1, val_recall := 1, val_f1 := 1 }

/-- Oracle with every metric constantly 0. -/
def wEvZ : ℕ → EpochEval := fun _ =>
  { train_loss := 0, train_acc := 0, val_loss := 0, val_acc := 0,
    val_precision := 0, val_recall := 0, val_f1 := 0 }

/-- Oracle following the validation-accuracy scenario of the spec,
section 8: accuracies 70, 72, 72, 71, 69. -/
def wEv1 : ℕ → EpochEval := fun i =>
  { train_loss := 0, train_acc := 0, val_loss := 0,
    val_acc := List.getD [70, 72, 72, 71, 69] i 0,
    val_precision := 0, val_recall := 0, val_f1 := 0 }

/-- Oracle with validation accuracy constantly 10. -/
def cEv3 : ℕ → EpochEval := fun _ =>
  { train_loss := 0, train_acc := 0, val_loss := 0, val_acc := 10,
    val_precision := 0, val_recall := 0, val_f1 := 0 }

/-- Oracle with validation accuracies 50, 60, 0, 0, ... -/
def wEv3 : ℕ → EpochEval := fun i =>
  { train_loss := 0, train_acc := 0, val_loss := 0,
    val_acc := List.getD [50, 60] i 0,
    val_precision := 0, val_recall := 0, val_f1 := 0 }

/-- Concrete scheduler state: best loss 5 seen, fresh counter. -/
def wSched : PlateauScheduler :=
  { factor := 1/2, patience := 3, best := some 5, num_bad := 0, lr := 4 }

/-- Oracle for the "train all" mode: every architecture sees the same single
fold with constant metrics. -/
def wOracle : String → List (ℕ → EpochEval) := fun _ => [wEvC]

/-- Fallback fold result used to project out of `Except`. -/
def emptyFoldResult : FoldResult :=
  ⟨0, 0, [], [], [], [], [], [], [], 0, 0, 0, ⟨0, 0, 0, 0⟩, [], [], false, 0⟩

/-- Fallback run result used to project out of `Except`. -/
def emptyRunResult : RunResult := ⟨[], 0, 0, 0, 0, []⟩

/-- Epoch index recorded in the "final" checkpoint of a completed fold. -/
def finalEpochOf (x : Except String FoldResult) : ℕ :=
  match x with
  | .ok r => r.final_ckpt.epoch
  | .error _ => 0

/-- Length of the validation-accuracy history of a completed fold. -/
def histLenOf (x : Except String FoldResult) : ℕ :=
  match x with
  | .ok r => r.val_accs.length
  | .error _ => 0

/-- Metric records received by the active telemetry backend of a completed
run. -/
def runEvents (x : Except String RunResult) : List TelemetryEvent :=
  match x with
  | .ok r => r.events
  | .error _ => []

/-- Concrete completed fold: accuracies 50 then 60, budget 2, patience 5. -/
def wRes3 : FoldResult := (runFold wEv3 0 2 5 true 1).toOption.getD emptyFoldResult

/-- Concrete completed run under the remote-tracking backend. -/
def wRun1 : RunResult := (train [wEvC] 1 1 true 1).toOption.getD emptyRunResult

/-- Concrete completed run under the local-log backend. -/
def wRun2 : RunResult := (train [wEvC] 1 1 false 1).toOption.getD emptyRunResult

/-- Concrete completed "train all" outcome. -/
def wAllRes : AllResult := (mainAll wOracle 1 1 false 1).toOption.getD ⟨[], [], 0, 0, ""⟩

/-! ### Pure recap of the fold loop

Closed-form descriptions of every component of the fold state after `k`
executed epochs, used to state and prove the loop invariant. -/

/-- Validation accuracy the oracle reports for epoch `i`. -/
def accAt (evals : ℕ → EpochEval) (i : ℕ) : ℚ := (evals i).val_acc

/-- Value of `best_val_acc` after `k` epochs. -/
def bestUpTo (evals : ℕ → EpochEval) : ℕ → ℚ
  | 0 => 0
  | k + 1 => if bestUpTo evals k < accAt evals k then accAt evals k else bestUpTo evals k

/-- Value of `epochs_no_improve` after `k` epochs. -/
def cntUpTo (evals : ℕ → EpochEval) : ℕ → ℕ
  | 0 => 0
  | k + 1 => if bestUpTo evals k < accAt evals k then 0 else cntUpTo evals k + 1

/-- Value of the `early_stop` flag after `k` epochs (sticky, set once the
counter reaches the patience). -/
def stopUpTo (evals : ℕ → EpochEval) (patience : ℕ) : ℕ → Bool
  | 0 => false
  | k + 1 => stopUpTo evals patience k || decide (patience ≤ cntUpTo evals (k + 1))

/-- One-based index of the last improving epoch among the first `k` epochs
(0 when none improved). -/
def lastImpUpTo (evals : ℕ → EpochEval) : ℕ → ℕ
  | 0 => 0
  | k + 1 => if bestUpTo evals k < accAt evals k then k + 1 else lastImpUpTo evals k

/-- First `k` values of `f`, in order. -/
def listUpTo (f : ℕ → ℚ) : ℕ → List ℚ
  | 0 => []
  | k + 1 => listUpTo f k ++ [f k]

/-- Scheduler state after `k` epochs fed with the validation losses. -/
def schedUpTo (evals : ℕ → EpochEval) (lr0 : ℚ) : ℕ → PlateauScheduler
  | 0 => { factor := 1/2, patience := 3, best := none, num_bad := 0, lr := lr0 }
  | k + 1 => (schedUpTo evals lr0 k).step (evals k).val_loss

/-- The "best" checkpoints written during the first `k` epochs, in order. -/
def ckptsUpTo (evals : ℕ → EpochEval) : ℕ → List Checkpoint
  | 0 => []
  | k + 1 =>
    if bestUpTo evals k < accAt evals k then ckptsUpTo evals k ++ [⟨k + 1, k + 1, k, accAt evals k⟩]
    else ckptsUpTo evals k

/-- The per-epoch telemetry records emitted during the first `k` epochs. -/
def eventsUpTo (evals : ℕ → EpochEval) (fold : ℕ) (lr0 : ℚ) : ℕ → List TelemetryEvent
  | 0 => []
  | k + 1 => eventsUpTo evals fold lr0 k ++
      [TelemetryEvent.epochMetrics fold (evals k).train_loss (evals k).train_acc (evals k).val_loss
        (evals k).val_acc (evals k).val_precision (evals k).val_recall (evals k).val_f1
        (schedUpTo evals lr0 (k + 1)).lr k]

/-- Loop invariant: the fold state after `k` executed epochs agrees with the
pure recap functions in every component (the Python local `epoch`, modelled
by `last_epoch`, is handled separately because the breaking iteration
overwrites it). -/
structure Coherent (evals : ℕ → EpochEval) (patience fold : ℕ) (lr0 : ℚ) (k : ℕ) (s : FoldState) : Prop where
  best : s.best_val_acc = bestUpTo evals k
  cnt : s.epochs_no_improve = cntUpTo evals k
  stop : s.early_stop = stopUpTo evals patience k
  sched : s.sched = schedUpTo evals lr0 k
  model : s.model_state = k
  optim : s.optim_state = k
  tl : s.train_losses = listUpTo (fun i => (evals i).train_loss) k
  vl : s.val_losses = listUpTo (fun i => (evals i).val_loss) k
  ta : s.train_accs = listUpTo (fun i => (evals i).train_acc) k
  va : s.val_accs = listUpTo (accAt evals) k
  vf : s.val_f1s = listUpTo (fun i => (evals i).val_f1) k
  vp : s.val_precisions = listUpTo (fun i => (evals i).val_precision) k
  vr : s.val_recalls = listUpTo (fun i => (evals i).val_recall) k
  ck : s.best_ckpts = ckptsUpTo evals k
  ev : s.events = eventsUpTo evals fold lr0 k
  lastA : s.last_val_acc = (if k = 0 then none else some (accAt evals (k - 1)))

/-- The initial fold state is coherent at `k = 0`. -/
theorem init_coherent (evals : ℕ → EpochEval) (patience fold : ℕ) (lr0 : ℚ) :
    Coherent evals patience fold lr0 0 (initFoldState lr0) :=
  ⟨rfl, rfl, rfl, rfl, rfl, rfl, rfl, rfl, rfl, rfl, rfl, rfl, rfl, rfl, rfl, rfl⟩

/-- Executing one epoch body preserves coherence, advancing `k` by one. -/
theorem epochBody_coherent (evals : ℕ → EpochEval) (patience fold : ℕ) (uw : Bool) (lr0 : ℚ)
    (k : ℕ) (s : FoldState) (h : Coherent evals patience fold lr0 k s) :
    Coherent evals patience fold lr0 (k + 1) (epochBody (evals k) fold patience uw k s) := by
  obtain ⟨h1, h2, h3, h4, h5, h6, h7, h8, h9, h10, h11, h12, h13, h14, h15, h16⟩ := h
  refine ⟨?_, ?_, ?_, ?_, ?_, ?_, ?_, ?_, ?_, ?_, ?_, ?_, ?_, ?_, ?_, ?_⟩ <;>
    simp [epochBody, bestUpTo, cntUpTo, stopUpTo, schedUpTo, listUpTo, ckptsUpTo, eventsUpTo,
      accAt, h1, h2, h3, h4, h5, h6, h7, h8, h9, h10, h11, h12, h13, h14, h15, h16]
  · cases uw <;> simp

/-- If the early-stop flag is still clear after `k` epochs and the patience
is positive, the counter is strictly below the patience. -/
theorem cnt_lt_of_stop_false (evals : ℕ → EpochEval) {patience k : ℕ}
    (h : stopUpTo evals patience k = false) (hp : 1 ≤ patience) :
    cntUpTo evals k < patience := by
  cases k with
  | zero => simpa [cntUpTo] using hp
  | succ j =>
    simp [stopUpTo] at h
    omega

/-- Master lemma: running the epoch loop from a coherent state lands in a
coherent state, together with the bookkeeping facts the individual claims
need (history growth bounds, the origin of the early-stop flag, the counter
bound, and the final value of the Python loop variable `epoch`). -/
theorem runEpochs_master (evals : ℕ → EpochEval) (fold patience : ℕ) (uw : Bool) (lr0 : ℚ) :
    ∀ (n k : ℕ) (s : FoldState), Coherent evals patience fold lr0 k s →
    ∃ k', Coherent evals patience fold lr0 k' (runEpochs evals fold patience uw n k s) ∧
      k ≤ k' ∧ k' ≤ k + n ∧
      (s.early_stop = true → k' = k) ∧
      ((runEpochs evals fold patience uw n k s).early_stop = true →
        s.early_stop = true ∨ patience ≤ cntUpTo evals k') ∧
      (s.early_stop = false → 1 ≤ n → k + 1 ≤ k') ∧
      (1 ≤ patience → s.epochs_no_improve ≤ patience →
        (runEpochs evals fold patience uw n k s).epochs_no_improve ≤ patience) ∧
      (s.last_epoch = (if k = 0 then none else some (k - 1)) →
        (runEpochs evals fold patience uw n k s).last_epoch =
          (if k + n = 0 then none else some (min k' (k + n - 1)))) := by
  intro n
  induction n with
  | zero =>
    intro k s h
    refine ⟨k, h, le_refl _, by omega, fun _ => rfl, fun hs => Or.inl hs,
      fun _ h1 => absurd h1 (by omega), fun _ hc => hc, fun hle => ?_⟩
    show s.last_epoch = _
    cases k with
    | zero => simpa using hle
    | succ j =>
      simp only [Nat.add_zero] at hle ⊢
      rw [hle, if_neg (Nat.succ_ne_zero j), if_neg (Nat.succ_ne_zero j)]
      rw [min_eq_right (by omega)]
  | succ n ih =>
    intro k s h
    cases hs : s.early_stop with
    | true =>
      have hrun : runEpochs evals fold patience uw (n + 1) k s = { s with last_epoch := some k } := by
        simp [runEpochs, hs]
      rw [hrun]
      refine ⟨k, ⟨h.best, h.cnt, h.stop, h.sched, h.model, h.optim, h.tl, h.vl, h.ta, h.va,
        h.vf, h.vp, h.vr, h.ck, h.ev, h.lastA⟩, le_refl _, by omega, fun _ => rfl,
        fun _ => Or.inl rfl, fun h0 => Bool.noConfusion h0, fun _ hc => hc, fun _ => ?_⟩
      rw [if_neg (by omega), min_eq_left (by omega)]
    | false =>
      have hrun : runEpochs evals fold patience uw (n + 1) k s =
          runEpochs evals fold patience uw n (k + 1) (epochBody (evals k) fold patience uw k s) := by
        simp [runEpochs, hs]
      have h' := epochBody_coherent evals patience fold uw lr0 k s h
      obtain ⟨k', hc, hk1, hk2, hke, horig, _, hcnt, hlast⟩ :=
        ih (k + 1) (epochBody (evals k) fold patience uw k s) h'
      rw [hrun]
      refine ⟨k', hc, by omega, by omega, fun hst => Bool.noConfusion hst, ?_, ?_, ?_, ?_⟩
      · intro hES
        rcases horig hES with hstop' | hle
        · right
          have hk'eq : k' = k + 1 := hke hstop'
          have hsucc : stopUpTo evals patience (k + 1) = true := by rw [← h'.stop]; exact hstop'
          have hsk : stopUpTo evals patience k = false := by rw [← h.stop]; exact hs
          rw [hk'eq]
          simpa [stopUpTo, hsk] using hsucc
        · exact Or.inr hle
      · intro _ _
        omega
      · intro hp hle
        refine hcnt hp ?_
        rw [h'.cnt]
        have hsk : stopUpTo evals patience k = false := by rw [← h.stop]; exact hs
        have hlt := cnt_lt_of_stop_false evals hsk hp
        simp only [cntUpTo]
        split
        · omega
        · omega
      · intro _
        have hle' : (epochBody (evals k) fold patience uw k s).last_epoch =
            (if k + 1 = 0 then none else some (k + 1 - 1)) := by
          simp [epochBody]
        have := hlast hle'
        rw [this, if_neg (by omega), if_neg (by omega)]
        congr 1
        omega

/-- Length of the first-`k` list. -/
theorem listUpTo_length (f : ℕ → ℚ) : ∀ k, (listUpTo f k).length = k
  | 0 => rfl
  | k + 1 => by simp [listUpTo, listUpTo_length f k]

/-- The first-`k` list is empty exactly when `k = 0`. -/
theorem listUpTo_eq_nil (f : ℕ → ℚ) (k : ℕ) : listUpTo f k = [] ↔ k = 0 := by
  cases k with
  | zero => simp [listUpTo]
  | succ j => simp [listUpTo]

/-- Last element of a non-empty first-`k` list. -/
theorem listUpTo_getLast (f : ℕ → ℚ) : ∀ k, 1 ≤ k → (listUpTo f k).getLast? = some (f (k - 1))
  | 0, h => absurd h (by omega)
  | k + 1, _ => by simp [listUpTo]

/-- The no-improvement counter equals the number of epochs since the last
improvement. -/
theorem cntUpTo_eq_sub (evals : ℕ → EpochEval) :
    ∀ k, lastImpUpTo evals k ≤ k ∧ cntUpTo evals k = k - lastImpUpTo evals k
  | 0 => ⟨le_refl 0, rfl⟩
  | k + 1 => by
    obtain ⟨h1, h2⟩ := cntUpTo_eq_sub evals k
    by_cases h : bestUpTo evals k < accAt evals k
    · simp [lastImpUpTo, cntUpTo, h]
    · simp [lastImpUpTo, cntUpTo, h]
      omega

/-- The running best accuracy is the fold of `max` over the accuracy history
with initial value 0. -/
theorem bestUpTo_foldl (evals : ℕ → EpochEval) :
    ∀ k, (listUpTo (accAt evals) k).foldl max 0 = bestUpTo evals k
  | 0 => rfl
  | k + 1 => by
    rw [listUpTo, List.foldl_append, bestUpTo_foldl evals k]
    simp only [List.foldl_cons, List.foldl_nil, bestUpTo]
    rcases le_or_lt (accAt evals k) (bestUpTo evals k) with h | h
    · rw [max_eq_left h, if_neg (not_lt.mpr h)]
    · rw [max_eq_right (le_of_lt h), if_pos h]

/-- Once the counter has reached the patience after a positive number of
epochs, the early-stop flag is set. -/
theorem stopUpTo_of_cnt (evals : ℕ → EpochEval) (patience k : ℕ) (hk : 1 ≤ k)
    (h : patience ≤ cntUpTo evals k) : stopUpTo evals patience k = true := by
  cases k with
  | zero => omega
  | succ j => simp [stopUpTo, h]

/-- The early-stop flag is never set with an empty history. -/
theorem stopUpTo_pos (evals : ℕ → EpochEval) (patience k : ℕ)
    (h : stopUpTo evals patience k = true) : 1 ≤ k := by
  cases k with
  | zero => simp [stopUpTo] at h
  | succ j => omega

/-- Fold-level specification: the state after a fold's epoch loop is
coherent at some epoch count `k' ≤ epochs`, the early-stop flag implies the
counter reached the patience, the counter never exceeds a positive patience,
at least one epoch runs when the budget is positive, and the leftover Python
loop variable `epoch` ends at `min k' (epochs - 1)`. -/
theorem foldFinal_spec (evals : ℕ → EpochEval) (fold epochs patience : ℕ) (uw : Bool) (lr0 : ℚ) :
    ∃ k', Coherent evals patience fold lr0 k' (foldFinalState evals fold epochs patience uw lr0) ∧
      k' ≤ epochs ∧
      ((foldFinalState evals fold epochs patience uw lr0).early_stop = true →
        patience ≤ cntUpTo evals k') ∧
      (1 ≤ patience →
        (foldFinalState evals fold epochs patience uw lr0).epochs_no_improve ≤ patience) ∧
      (1 ≤ epochs → 1 ≤ k') ∧
      (foldFinalState evals fold epochs patience uw lr0).last_epoch =
        (if epochs = 0 then none else some (min k' (epochs - 1))) := by
  obtain ⟨k', hc, _, hk2, _, horig, hone, hcnt, hlast⟩ :=
    runEpochs_master evals fold patience uw lr0 epochs 0 (initFoldState lr0)
      (init_coherent evals patience fold lr0)
  refine ⟨k', hc, by omega, ?_, fun hp => hcnt hp (Nat.zero_le _), fun he => hone rfl he, ?_⟩
  · intro hES
    rcases horig hES with h0 | h0
    · exact Bool.noConfusion h0
    · exact h0
  · have := hlast (by simp [initFoldState])
    simpa using this

/-- Specification of a completed `runFold`: with a positive epoch budget the
fold completes, returning a result whose every recorded component is the
recap at the number `k'` of executed epochs, and whose single "final"
checkpoint carries the state of the last executed epoch together with the
leftover value of the loop variable `epoch`. -/
theorem runFold_spec (evals : ℕ → EpochEval) (fold epochs patience : ℕ) (uw : Bool) (lr0 : ℚ)
    (he : 1 ≤ epochs) :
    ∃ (r : FoldResult) (k' : ℕ), runFold evals fold epochs patience uw lr0 = .ok r ∧
      1 ≤ k' ∧ k' ≤ epochs ∧
      r.fold = fold + 1 ∧
      r.best_val_acc = bestUpTo evals k' ∧
      r.epochs_no_improve = cntUpTo evals k' ∧
      r.early_stop = stopUpTo evals patience k' ∧
      r.train_losses = listUpTo (fun i => (evals i).train_loss) k' ∧
      r.val_losses = listUpTo (fun i => (evals i).val_loss) k' ∧
      r.train_accs = listUpTo (fun i => (evals i).train_acc) k' ∧
      r.val_accs = listUpTo (accAt evals) k' ∧
      r.val_f1s = listUpTo (fun i => (evals i).val_f1) k' ∧
      r.val_precisions = listUpTo (fun i => (evals i).val_precision) k' ∧
      r.val_recalls = listUpTo (fun i => (evals i).val_recall) k' ∧
      r.avg_val_f1 = npMean r.val_f1s ∧
      r.avg_val_recall = npMean r.val_recalls ∧
      r.avg_val_precision = npMean r.val_precisions ∧
      r.best_ckpts = ckptsUpTo evals k' ∧
      r.events = eventsUpTo evals fold lr0 k' ∧
      (r.early_stop = true → patience ≤ cntUpTo evals k') ∧
      (1 ≤ patience → r.epochs_no_improve ≤ patience) ∧
      r.final_ckpt = ⟨k', k', min k' (epochs - 1), accAt evals (k' - 1)⟩ := by
  obtain ⟨k', hc, hk2, horig, hcnt, hone, hlast⟩ :=
    foldFinal_spec evals fold epochs patience uw lr0
  have hk1 : 1 ≤ k' := hone he
  have hle : (foldFinalState evals fold epochs patience uw lr0).last_epoch =
      some (min k' (epochs - 1)) := by
    rw [hlast, if_neg (by omega)]
  have hla : (foldFinalState evals fold epochs patience uw lr0).last_val_acc =
      some (accAt evals (k' - 1)) := by
    rw [hc.lastA, if_neg (by omega)]
  refine ⟨{ fold := fold + 1
            best_val_acc := (foldFinalState evals fold epochs patience uw lr0).best_val_acc
            train_losses := (foldFinalState evals fold epochs patience uw lr0).train_losses
            val_losses := (foldFinalState evals fold epochs patience uw lr0).val_losses
            train_accs := (foldFinalState evals fold epochs patience uw lr0).train_accs
            val_accs := (foldFinalState evals fold epochs patience uw lr0).val_accs
            val_f1s := (foldFinalState evals fold epochs patience uw lr0).val_f1s
            val_precisions := (foldFinalState evals fold epochs patience uw lr0).val_precisions
            val_recalls := (foldFinalState evals fold epochs patience uw lr0).val_recalls
            avg_val_f1 := npMean (foldFinalState evals fold epochs patience uw lr0).val_f1s
            avg_val_recall := npMean (foldFinalState evals fold epochs patience uw lr0).val_recalls
            avg_val_precision := npMean (foldFinalState evals fold epochs patience uw lr0).val_precisions
            final_ckpt := ⟨(foldFinalState evals fold epochs patience uw lr0).model_state,
              (foldFinalState evals fold epochs patience uw lr0).optim_state,
              min k' (epochs - 1), accAt evals (k' - 1)⟩
            best_ckpts := (foldFinalState evals fold epochs patience uw lr0).best_ckpts
            events := (foldFinalState evals fold epochs patience uw lr0).events
            early_stop := (foldFinalState evals fold epochs patience uw lr0).early_stop
            epochs_no_improve := (foldFinalState evals fold epochs patience uw lr0).epochs_no_improve },
    k', ?_, hk1, hk2, rfl, hc.best, hc.cnt, hc.stop, hc.tl, hc.vl, hc.ta, hc.va,
    hc.vf, hc.vp, hc.vr, rfl, rfl, rfl, hc.ck, hc.ev, horig, hcnt, ?_⟩
  · simp only [runFold, hle, hla]
  · show (⟨_, _, _, _⟩ : Checkpoint) = _
    rw [hc.model, hc.optim]

/-! ### Claim theorems -/

/-- Claim C2: for every fold and every epoch, the no-improvement counter
increments by one exactly when the epoch's validation accuracy is less than
or equal to the best seen so far (ties count as non-improvement), and resets
to 0 exactly when the validation accuracy is strictly greater than the best
seen so far (`src/train.py` lines 169-182). -/
theorem no_improve_counter_spec (ev : EpochEval) (fold patience : ℕ) (uw : Bool) (e : ℕ)
    (s : FoldState) :
    ((epochBody ev fold patience uw e s).epochs_no_improve = s.epochs_no_improve + 1 ↔
      ev.val_acc ≤ s.best_val_acc) ∧
    ((epochBody ev fold patience uw e s).epochs_no_improve = 0 ↔
      s.best_val_acc < ev.val_acc) := by
  by_cases h : s.best_val_acc < ev.val_acc
  · constructor
    · simp [epochBody, h, not_le.mpr h]
    · simp [epochBody, h]
  · constructor
    · simp [epochBody, h, not_lt.mp h]
    · simp [epochBody, h]

/-- Claim C4: for every fold and every epoch, a "best" checkpoint is
appended in that epoch exactly when the epoch's validation accuracy strictly
exceeds the best previously seen, and it records the model and optimizer
state after this epoch's training, the epoch index, and the improving
validation accuracy; otherwise the checkpoint list is unchanged
(`src/train.py` lines 169-179). -/
theorem best_ckpt_iff_improvement (ev : EpochEval) (fold patience : ℕ) (uw : Bool) (e : ℕ)
    (s : FoldState) :
    ((epochBody ev fold patience uw e s).best_ckpts =
        s.best_ckpts ++ [⟨s.model_state + 1, s.optim_state + 1, e, ev.val_acc⟩] ↔
      s.best_val_acc < ev.val_acc) ∧
    ((epochBody ev fold patience uw e s).best_ckpts = s.best_ckpts ↔
      ev.val_acc ≤ s.best_val_acc) := by
  by_cases h : s.best_val_acc < ev.val_acc
  · constructor
    · simp [epochBody, h]
    · simp [epochBody, h, not_le.mpr h]
  · constructor
    · simp [epochBody, h]
    · simp [epochBody, h, not_lt.mp h]

/-- With an all-zero accuracy oracle nothing ever improves: the running best
stays 0, the counter counts every epoch, and no "best" checkpoint is
written. -/
theorem allzero_recap (evals : ℕ → EpochEval) (hz : ∀ i, accAt evals i = 0) :
    ∀ k, bestUpTo evals k = 0 ∧ cntUpTo evals k = k ∧ ckptsUpTo evals k = []
  | 0 => ⟨rfl, rfl, rfl⟩
  | k + 1 => by
    obtain ⟨h1, h2, h3⟩ := allzero_recap evals hz k
    have hni : ¬ bestUpTo evals k < accAt evals k := by
      rw [h1, hz k]
      exact lt_irrefl 0
    simp [bestUpTo, cntUpTo, ckptsUpTo, hni, h1, h2, h3, hz k]

/-- Claim C10: the per-fold best validation accuracy is initialized to 0, so
the first epoch counts as an improvement exactly when its validation
accuracy is strictly positive; a fold whose validation accuracy is 0 on
every epoch never writes a "best" checkpoint and its no-improvement counter
has incremented on every epoch, starting with the first
(`src/train.py` lines 122, 169-182). -/
theorem best_init_zero_spec (evals : ℕ → EpochEval) (ev : EpochEval) (fold epochs patience : ℕ)
    (uw : Bool) (lr0 : ℚ) :
    (initFoldState lr0).best_val_acc = 0 ∧
    ((epochBody ev fold patience uw 0 (initFoldState lr0)).epochs_no_improve = 0 ↔
      0 < ev.val_acc) ∧
    ((epochBody ev fold patience uw 0 (initFoldState lr0)).best_ckpts ≠ [] ↔
      0 < ev.val_acc) ∧
    ((∀ i, (evals i).val_acc = 0) →
      (foldFinalState evals fold epochs patience uw lr0).best_ckpts = [] ∧
      (foldFinalState evals fold epochs patience uw lr0).epochs_no_improve =
        (foldFinalState evals fold epochs patience uw lr0).val_accs.length ∧
      (1 ≤ epochs → 1 ≤ (foldFinalState evals fold epochs patience uw lr0).val_accs.length)) := by
  refine ⟨rfl, ?_, ?_, ?_⟩
  · by_cases h : (0 : ℚ) < ev.val_acc
    · simp [epochBody, initFoldState, h]
    · simp [epochBody, initFoldState, h]
  · by_cases h : (0 : ℚ) < ev.val_acc
    · simp [epochBody, initFoldState, h]
    · simp [epochBody, initFoldState, h]
  · intro hz
    obtain ⟨k', hc, _, _, _, hone, _⟩ := foldFinal_spec evals fold epochs patience uw lr0
    obtain ⟨hb, hcnt, hck⟩ := allzero_recap evals hz k'
    have hlen : (foldFinalState evals fold epochs patience uw lr0).val_accs.length = k' := by
      rw [hc.va, listUpTo_length]
    refine ⟨?_, ?_, ?_⟩
    · rw [hc.ck, hck]
    · rw [hc.cnt, hcnt, hlen]
    · intro he
      rw [hlen]
      exact hone he

/-- Witness for C10: on the all-zero oracle with budget 2 and patience 3,
the conclusion holds at a concrete input. -/
theorem best_init_zero_spec_witness :
    (initFoldState (1 : ℚ)).best_val_acc = 0 ∧
    ((epochBody (wEvC 0) 0 3 true 0 (initFoldState 1)).epochs_no_improve = 0 ↔
      0 < (wEvC 0).val_acc) ∧
    ((epochBody (wEvC 0) 0 3 true 0 (initFoldState 1)).best_ckpts ≠ [] ↔
      0 < (wEvC 0).val_acc) ∧
    ((∀ i, (wEvZ i).val_acc = 0) →
      (foldFinalState wEvZ 0 2 3 true 1).best_ckpts = [] ∧
      (foldFinalState wEvZ 0 2 3 true 1).epochs_no_improve =
        (foldFinalState wEvZ 0 2 3 true 1).val_accs.length ∧
      (1 ≤ 2 → 1 ≤ (foldFinalState wEvZ 0 2 3 true 1).val_accs.length)) :=
  best_init_zero_spec wEvZ (wEvC 0) 0 2 3 true 1

/-- Claim C1: for every fold, early stopping triggers exactly when the
no-improvement counter reaches the configured (positive) patience; when it
triggers no further epoch of the fold is trained (every trained epoch is an
evaluated one in the history), the history length equals the one-based epoch
of last improvement plus the patience, and the history length is always
bounded by the epoch budget (`src/train.py` lines 133-136, 184-187). -/
theorem early_stopping_patience_spec (evals : ℕ → EpochEval) (fold epochs patience : ℕ)
    (uw : Bool) (lr0 : ℚ) (hp : 1 ≤ patience) :
    ∀ F : FoldState, F = foldFinalState evals fold epochs patience uw lr0 →
      (F.early_stop = true ↔ (F.val_accs ≠ [] ∧ F.epochs_no_improve = patience)) ∧
      (F.early_stop = true →
        F.val_accs.length = lastImpUpTo evals F.val_accs.length + patience ∧
        F.model_state = F.val_accs.length) ∧
      F.val_accs.length ≤ epochs := by
  intro F hF
  obtain ⟨k', hc, hk2, horig, hcnt, _, _⟩ := foldFinal_spec evals fold epochs patience uw lr0
  subst hF
  have hlen : (foldFinalState evals fold epochs patience uw lr0).val_accs.length = k' := by
    rw [hc.va, listUpTo_length]
  refine ⟨⟨?_, ?_⟩, ?_, ?_⟩
  · intro hES
    have h1 : patience ≤ cntUpTo evals k' := horig hES
    have h2 := hcnt hp
    have h3 := hc.cnt
    have hk1 : 1 ≤ k' := stopUpTo_pos evals patience k' (by rw [← hc.stop]; exact hES)
    refine ⟨?_, by omega⟩
    rw [hc.va, Ne, listUpTo_eq_nil]
    omega
  · rintro ⟨hne, hcp⟩
    rw [hc.va, Ne, listUpTo_eq_nil] at hne
    rw [hc.cnt] at hcp
    rw [hc.stop]
    exact stopUpTo_of_cnt evals patience k' (by omega) (by omega)
  · intro hES
    have h1 : patience ≤ cntUpTo evals k' := horig hES
    have h2 := hcnt hp
    have h3 := hc.cnt
    obtain ⟨hli, hsub⟩ := cntUpTo_eq_sub evals k'
    constructor
    · rw [hlen]
      omega
    · rw [hc.model, hlen]
  · rw [hlen]
    exact hk2

/-- Witness for C1: the spec's section-8 scenario — accuracies
70, 72, 72, 71, 69 with budget 5 and patience 2 — instantiates the theorem;
early stop triggers after the fourth epoch. -/
theorem early_stopping_patience_spec_witness :
    (1 : ℕ) ≤ 2 ∧
    (((foldFinalState wEv1 0 5 2 true 1).early_stop = true ↔
      ((foldFinalState wEv1 0 5 2 true 1).val_accs ≠ [] ∧
        (foldFinalState wEv1 0 5 2 true 1).epochs_no_improve = 2)) ∧
     ((foldFinalState wEv1 0 5 2 true 1).early_stop = true →
        (foldFinalState wEv1 0 5 2 true 1).val_accs.length =
          lastImpUpTo wEv1 ((foldFinalState wEv1 0 5 2 true 1).val_accs.length) + 2 ∧
        (foldFinalState wEv1 0 5 2 true 1).model_state =
          (foldFinalState wEv1 0 5 2 true 1).val_accs.length) ∧
     (foldFinalState wEv1 0 5 2 true 1).val_accs.length ≤ 5) :=
  ⟨by decide, early_stopping_patience_spec wEv1 0 5 2 true 1 (by decide) _ rfl⟩

/-- Counterexample for C3 as stated: with constant validation accuracy 10,
budget 5 and patience 1, the fold early-stops after its second evaluated
epoch (0-based index 1), but the "final" checkpoint records epoch index 2 —
the value of the loop variable at the iteration that broke — not the index
1 of the last completed epoch. -/
theorem final_ckpt_epoch_counterexample :
    finalEpochOf (runFold cEv3 0 5 1 true 1) = 2 ∧
    histLenOf (runFold cEv3 0 5 1 true 1) = 2 ∧
    finalEpochOf (runFold cEv3 0 5 1 true 1) ≠ histLenOf (runFold cEv3 0 5 1 true 1) - 1 := by
  refine ⟨by decide, by decide, by decide⟩

/-- Claim C3 (amended): exactly one "final" checkpoint is produced per
completed fold, at fold completion; it records the model and optimizer state
and the validation accuracy of the last completed (evaluated) epoch,
regardless of whether that epoch was a "best" epoch; its recorded epoch
index is `min (history length) (budget - 1)` — the index of the last
evaluated epoch when the fold ends by exhausting the budget (or early-stops
on the final budgeted epoch), and that index plus one when early stopping
ends the fold before the budget is exhausted. -/
theorem final_ckpt_spec_amended (evals : ℕ → EpochEval) (fold epochs patience : ℕ) (uw : Bool)
    (lr0 : ℚ) (r : FoldResult) (h : runFold evals fold epochs patience uw lr0 = .ok r) :
    r.val_accs ≠ [] ∧
    r.val_accs.getLast? = some r.final_ckpt.val_acc ∧
    r.final_ckpt.model_state = r.val_accs.length ∧
    r.final_ckpt.optim_state = r.val_accs.length ∧
    r.final_ckpt.epoch = min r.val_accs.length (epochs - 1) := by
  cases epochs with
  | zero => exact Except.noConfusion h
  | succ m =>
    obtain ⟨r', k', hok, hk1, hk2, _, _, _, _, _, _, _, hva, _, _, _, _, _, _, _, _, _, _,
      hfc⟩ := runFold_spec evals fold (m + 1) patience uw lr0 (by omega)
    rw [h] at hok
    injection hok with hr
    subst hr
    have hlen : r.val_accs.length = k' := by rw [hva, listUpTo_length]
    refine ⟨?_, ?_, ?_, ?_, ?_⟩
    · rw [hva, Ne, listUpTo_eq_nil]
      omega
    · rw [hva, listUpTo_getLast _ k' hk1, hfc]
    · rw [hfc, hlen]
    · rw [hfc, hlen]
    · rw [hfc, hlen]

/-- Witness for the amended C3: accuracies 50 then 60 with budget 2 and
patience 5 — the fold exhausts its budget and the final checkpoint records
the last evaluated epoch's index 1 and accuracy 60. -/
theorem final_ckpt_spec_amended_witness :
    runFold wEv3 0 2 5 true 1 = .ok wRes3 ∧
    (wRes3.val_accs ≠ [] ∧
     wRes3.val_accs.getLast? = some wRes3.final_ckpt.val_acc ∧
     wRes3.final_ckpt.model_state = wRes3.val_accs.length ∧
     wRes3.final_ckpt.optim_state = wRes3.val_accs.length ∧
     wRes3.final_ckpt.epoch = min wRes3.val_accs.length (2 - 1)) :=
  ⟨rfl, final_ckpt_spec_amended wEv3 0 2 5 true 1 wRes3 rfl⟩

/-- Claim C9: the training loop requires a positive epoch budget.  With
budget 0 the epoch loop body never runs (the fold state stays initial, the
history is empty) and the final-checkpoint write then references the
never-assigned Python locals `epoch` and `val_acc`, so the fold — and any
run containing a fold — faults instead of completing and writing a "final"
checkpoint; with a positive budget the fold completes normally
(`src/train.py` lines 133, 214-216). -/
theorem zero_epoch_budget_faults (evals : ℕ → EpochEval) (fold patience : ℕ) (uw : Bool)
    (lr0 : ℚ) (folds : List (ℕ → EpochEval)) (hne : folds ≠ []) :
    foldFinalState evals fold 0 patience uw lr0 = initFoldState lr0 ∧
    (foldFinalState evals fold 0 patience uw lr0).val_accs = [] ∧
    runFold evals fold 0 patience uw lr0 =
      .error "NameError: local variable referenced before assignment" ∧
    (∃ msg, train folds 0 patience uw lr0 = .error msg) ∧
    (∀ epochs, 1 ≤ epochs → ∃ r, runFold evals fold epochs patience uw lr0 = .ok r) := by
  refine ⟨rfl, rfl, rfl, ?_, ?_⟩
  · cases folds with
    | nil => exact absurd rfl hne
    | cons f rest =>
      exact ⟨"NameError: local variable referenced before assignment", rfl⟩
  · intro epochs he
    obtain ⟨r, k', hok, _⟩ := runFold_spec evals fold epochs patience uw lr0 he
    exact ⟨r, hok⟩

/-- Witness for C9 at a concrete input: one fold with constant metrics,
patience 1. -/
theorem zero_epoch_budget_faults_witness :
    ([wEvC] : List (ℕ → EpochEval)) ≠ [] ∧
    (foldFinalState wEvC 0 0 1 true 1 = initFoldState 1 ∧
     (foldFinalState wEvC 0 0 1 true 1).val_accs = [] ∧
     runFold wEvC 0 0 1 true 1 =
       .error "NameError: local variable referenced before assignment" ∧
     (∃ msg, train [wEvC] 0 1 true 1 = .error msg) ∧
     (∀ epochs, 1 ≤ epochs → ∃ r, runFold wEvC 0 epochs 1 true 1 = .ok r)) :=
  ⟨List.cons_ne_nil _ _, zero_epoch_budget_faults wEvC 0 1 true 1 [wEvC] (List.cons_ne_nil _ _)⟩

/-- A completed fold's recorded best accuracy is the maximum (from 0) over
its full accuracy history, and its recorded per-fold averages are the means
of its full per-epoch metric histories. -/
theorem runFold_ok_fields (evals : ℕ → EpochEval) (fold epochs patience : ℕ) (uw : Bool)
    (lr0 : ℚ) (r : FoldResult) (h : runFold evals fold epochs patience uw lr0 = .ok r) :
    r.best_val_acc = r.val_accs.foldl max 0 ∧
    r.avg_val_f1 = npMean r.val_f1s ∧
    r.avg_val_recall = npMean r.val_recalls ∧
    r.avg_val_precision = npMean r.val_precisions := by
  cases epochs with
  | zero => exact Except.noConfusion h
  | succ m =>
    obtain ⟨r', k', hok, _, _, _, hbest, _, _, _, _, _, hva, _, _, _, haf, har, hap, _, _, _,
      _, _⟩ := runFold_spec evals fold (m + 1) patience uw lr0 (by omega)
    rw [h] at hok
    injection hok with hr
    subst hr
    refine ⟨?_, haf, har, hap⟩
    rw [hbest, hva]
    exact (bestUpTo_foldl evals k').symm

/-- Every fold result of a completed fold iteration satisfies
`runFold_ok_fields`. -/
theorem runFoldsAux_ok_fields (epochs patience : ℕ) (uw : Bool) (lr0 : ℚ) :
    ∀ (folds : List (ℕ → EpochEval)) (i : ℕ) (rs : List FoldResult),
      runFoldsAux epochs patience uw lr0 folds i = .ok rs →
      ∀ r ∈ rs,
        r.best_val_acc = r.val_accs.foldl max 0 ∧
        r.avg_val_f1 = npMean r.val_f1s ∧
        r.avg_val_recall = npMean r.val_recalls ∧
        r.avg_val_precision = npMean r.val_precisions := by
  intro folds
  induction folds with
  | nil =>
    intro i rs h r hr
    simp only [runFoldsAux] at h
    injection h with h'
    subst h'
    exact absurd hr (List.not_mem_nil r)
  | cons f rest ih =>
    intro i rs h r hr
    simp only [runFoldsAux] at h
    cases hrf : runFold f i epochs patience uw lr0 with
    | error msg => rw [hrf] at h; exact Except.noConfusion h
    | ok r0 =>
      rw [hrf] at h
      cases haux : runFoldsAux epochs patience uw lr0 rest (i + 1) with
      | error msg => rw [haux] at h; exact Except.noConfusion h
      | ok rs0 =>
        rw [haux] at h
        injection h with h'
        subst h'
        rcases List.mem_cons.mp hr with rfl | hmem
        · exact runFold_ok_fields f i epochs patience uw lr0 r hrf
        · exact ih (i + 1) rs0 haux r hmem

/-- Claim C5: for a completed run, the run-level average validation accuracy
is the unweighted arithmetic mean of the per-fold best validation accuracies
(each the maximum of that fold's history), while the run-level average F1,
recall and precision are the unweighted means over folds of the mean over
ALL epochs of the fold's history of the respective per-epoch metric
(`src/train.py` lines 194-199, 220-234). -/
theorem run_level_averages (folds : List (ℕ → EpochEval)) (epochs patience : ℕ) (uw : Bool)
    (lr0 : ℚ) (r : RunResult) (h : train folds epochs patience uw lr0 = .ok r) :
    r.avg_val_acc = npMean (r.fold_results.map (fun fr => fr.best_val_acc)) ∧
    r.avg_val_f1 = npMean (r.fold_results.map (fun fr => npMean fr.val_f1s)) ∧
    r.avg_val_recall = npMean (r.fold_results.map (fun fr => npMean fr.val_recalls)) ∧
    r.avg_val_precision = npMean (r.fold_results.map (fun fr => npMean fr.val_precisions)) ∧
    (∀ fr ∈ r.fold_results, fr.best_val_acc = fr.val_accs.foldl max 0) := by
  unfold train at h
  cases haux : runFoldsAux epochs patience uw lr0 folds 0 with
  | error msg => rw [haux] at h; exact Except.noConfusion h
  | ok rs =>
    rw [haux] at h
    injection h with h'
    subst h'
    have hfields := runFoldsAux_ok_fields epochs patience uw lr0 folds 0 rs haux
    refine ⟨rfl, ?_, ?_, ?_, fun fr hm => (hfields fr hm).1⟩
    · show npMean (rs.map (fun fr => fr.avg_val_f1)) = _
      rw [List.map_congr_left (fun fr hm => (hfields fr hm).2.1)]
    · show npMean (rs.map (fun fr => fr.avg_val_recall)) = _
      rw [List.map_congr_left (fun fr hm => (hfields fr hm).2.2.1)]
    · show npMean (rs.map (fun fr => fr.avg_val_precision)) = _
      rw [List.map_congr_left (fun fr hm => (hfields fr hm).2.2.2)]

/-- Witness for C5 at a concrete completed run: one fold, one epoch,
constant metrics. -/
theorem run_level_averages_witness :
    train [wEvC] 1 1 true 1 = .ok wRun1 ∧
    (wRun1.avg_val_acc = npMean (wRun1.fold_results.map (fun fr => fr.best_val_acc)) ∧
     wRun1.avg_val_f1 = npMean (wRun1.fold_results.map (fun fr => npMean fr.val_f1s)) ∧
     wRun1.avg_val_recall = npMean (wRun1.fold_results.map (fun fr => npMean fr.val_recalls)) ∧
     wRun1.avg_val_precision =
       npMean (wRun1.fold_results.map (fun fr => npMean fr.val_precisions)) ∧
     (∀ fr ∈ wRun1.fold_results, fr.best_val_acc = fr.val_accs.foldl max 0)) :=
  ⟨rfl, run_level_averages [wEvC] 1 1 true 1 wRun1 rfl⟩

/-- Characterisation of a halving step of the plateau scheduler: with the
bad-epoch counter within its bound, one step halves the learning rate
exactly when the fed loss does not improve on the best and the counter has
already reached the scheduler patience. -/
theorem step_halves_iff (s : PlateauScheduler) (l b : ℚ) (hb : s.best = some b)
    (hf : s.factor = 1/2) (hlr : 0 < s.lr) (hinv : s.num_bad ≤ s.patience) :
    ((s.step l).lr = s.lr * (1/2) ↔ (b ≤ l ∧ s.num_bad = s.patience)) := by
  by_cases h1 : l < b
  · constructor
    · intro hcon
      simp [PlateauScheduler.step, hb, h1] at hcon
      linarith
    · rintro ⟨hbl, _⟩
      exact absurd h1 (not_lt.mpr hbl)
  · by_cases h2 : s.patience < s.num_bad + 1
    · constructor
      · intro _
        exact ⟨not_lt.mp h1, by omega⟩
      · intro _
        simp [PlateauScheduler.step, hb, h1, h2, hf]
    · constructor
      · intro hcon
        simp [PlateauScheduler.step, hb, h1, h2] at hcon
        linarith
      · rintro ⟨_, heq⟩
        omega

/-- Feeding only non-improving losses within the patience budget leaves the
scheduler unchanged except for the bad-epoch counter. -/
theorem stepMany_flat : ∀ (L : List ℚ) (s : PlateauScheduler) (b : ℚ), s.best = some b →
    (∀ x ∈ L, b ≤ x) → s.num_bad + L.length ≤ s.patience →
    s.stepMany L = { s with num_bad := s.num_bad + L.length }
  | [], s, b, _, _, _ => by simp [PlateauScheduler.stepMany]
  | l :: L, s, b, hb, hmem, hlen => by
    have hbl : b ≤ l := hmem l (List.mem_cons_self l L)
    have hlen' : s.num_bad + 1 + L.length ≤ s.patience := by
      simp only [List.length_cons] at hlen
      omega
    have hstep : s.step l = { s with num_bad := s.num_bad + 1 } := by
      simp [PlateauScheduler.step, hb, not_lt.mpr hbl]
      omega
    rw [PlateauScheduler.stepMany, hstep]
    rw [stepMany_flat L { s with num_bad := s.num_bad + 1 } b hb
      (fun x hx => hmem x (List.mem_cons_of_mem _ hx)) hlen']
    simp only [List.length_cons]
    congr 1
    omega

/-- Claim C6: after each epoch the validation loss is fed to the plateau
scheduler (`scheduler.step(val_loss)`, `src/train.py` line 146), whose
patience is the fixed sub-patience 3, decoupled from the outer
early-stopping patience, and whose factor is 0.5 (`src/train.py` line 117);
a step halves the learning rate exactly when the fed loss fails to improve
on the best with the bad-epoch counter already at the scheduler patience —
so after `p` consecutive non-improving losses the rate is unchanged and the
`p+1`-st non-improving loss halves it. -/
theorem plateau_scheduler_spec (s : PlateauScheduler) (l b : ℚ) (L : List ℚ)
    (hf : s.factor = 1/2) (hlr : 0 < s.lr) (hb : s.best = some b) :
    (∀ lr0 : ℚ, (initFoldState lr0).sched =
      { factor := 1/2, patience := 3, best := none, num_bad := 0, lr := lr0 }) ∧
    (∀ (ev : EpochEval) (fold patience : ℕ) (uw : Bool) (e : ℕ) (st : FoldState),
      (epochBody ev fold patience uw e st).sched = st.sched.step ev.val_loss) ∧
    (s.num_bad ≤ s.patience →
      ((s.step l).lr = s.lr * (1/2) ↔ (b ≤ l ∧ s.num_bad = s.patience))) ∧
    (s.num_bad = 0 → L.length = s.patience → (∀ x ∈ L, b ≤ x) → b ≤ l →
      (s.stepMany L).lr = s.lr ∧ ((s.stepMany L).step l).lr = s.lr * (1/2)) := by
  refine ⟨fun _ => rfl, fun _ _ _ _ _ _ => rfl, step_halves_iff s l b hb hf hlr, ?_⟩
  intro h0 hlen hmem hbl
  have hflat := stepMany_flat L s b hb hmem (by omega)
  rw [hflat]
  refine ⟨rfl, ?_⟩
  have hstep : ({ s with num_bad := s.num_bad + L.length } : PlateauScheduler).step l =
      { s with num_bad := 0, lr := s.lr * s.factor } := by
    simp [PlateauScheduler.step, hb, not_lt.mpr hbl,
      (by omega : s.patience < s.num_bad + L.length + 1)]
  rw [hstep]
  show s.lr * s.factor = _
  rw [hf]

/-- Witness for C6: from best loss 5 with fresh counter and rate 4, the
three non-improving losses 5, 6, 7 leave the rate at 4 and a fourth
non-improving loss halves it. -/
theorem plateau_scheduler_spec_witness :
    (0 : ℚ) < 4 ∧
    ((wSched.stepMany [5, 6, 7]).lr = 4 ∧ ((wSched.stepMany [5, 6, 7]).step 5).lr = 4 * (1/2)) :=
  ⟨by norm_num,
    (plateau_scheduler_spec wSched 5 5 [5, 6, 7] rfl (by decide) rfl).2.2.2 rfl rfl
      (by decide) (by decide)⟩

/-- The epoch body is independent of the backend selection: both branches
emit the same per-epoch metric record. -/
theorem epochBody_uw (ev : EpochEval) (fold patience : ℕ) (e : ℕ) (s : FoldState) :
    epochBody ev fold patience true e s = epochBody ev fold patience false e s := by
  simp [epochBody]

/-- The epoch loop is independent of the backend selection. -/
theorem runEpochs_uw (evals : ℕ → EpochEval) (fold patience : ℕ) :
    ∀ (n e : ℕ) (s : FoldState),
      runEpochs evals fold patience true n e s = runEpochs evals fold patience false n e s
  | 0, _, _ => rfl
  | n + 1, e, s => by
    cases hs : s.early_stop with
    | true => simp [runEpochs, hs]
    | false =>
      simp only [runEpochs, hs, Bool.false_eq_true, if_false]
      rw [epochBody_uw]
      exact runEpochs_uw evals fold patience n (e + 1) _

/-- A fold's outcome is independent of the backend selection. -/
theorem runFold_uw (evals : ℕ → EpochEval) (fold epochs patience : ℕ) (lr0 : ℚ) :
    runFold evals fold epochs patience true lr0 = runFold evals fold epochs patience false lr0 := by
  unfold runFold foldFinalState
  rw [runEpochs_uw]

/-- The fold iteration is independent of the backend selection. -/
theorem runFoldsAux_uw (epochs patience : ℕ) (lr0 : ℚ) :
    ∀ (folds : List (ℕ → EpochEval)) (i : ℕ),
      runFoldsAux epochs patience true lr0 folds i = runFoldsAux epochs patience false lr0 folds i
  | [], _ => rfl
  | f :: rest, i => by
    simp only [runFoldsAux]
    rw [runFold_uw, runFoldsAux_uw epochs patience lr0 rest (i + 1)]

/-- Counterexample for C7 as stated: on a one-fold, one-epoch run the remote
backend receives the per-epoch record and then the run summary, while the
local backend receives the per-epoch record only — the logged metric content
differs with the backend selection. -/
theorem telemetry_backend_counterexample :
    runEvents (train [wEvC] 1 1 true 1) ≠ runEvents (train [wEvC] 1 1 false 1) := by
  decide

/-- Claim C7 (amended): the two telemetry backends receive identical
per-epoch metric records — the whole fold-by-fold per-epoch stream, and the
fold results and run-level averages, are independent of the backend
selection — but the run-level summary record is emitted only to the remote
tracking service: the remote stream is exactly the local stream followed by
the one summary record (`src/train.py` lines 157-161, 236-245). -/
theorem telemetry_backend_amended (folds : List (ℕ → EpochEval)) (epochs patience : ℕ)
    (lr0 : ℚ) (r1 r2 : RunResult) (h1 : train folds epochs patience true lr0 = .ok r1)
    (h2 : train folds epochs patience false lr0 = .ok r2) :
    r1.events = r2.events ++
      [TelemetryEvent.runSummary r2.avg_val_acc r2.avg_val_f1 r2.avg_val_recall
        r2.avg_val_precision] ∧
    r1.fold_results = r2.fold_results ∧
    r1.avg_val_acc = r2.avg_val_acc ∧
    r1.avg_val_f1 = r2.avg_val_f1 ∧
    r1.avg_val_recall = r2.avg_val_recall ∧
    r1.avg_val_precision = r2.avg_val_precision := by
  unfold train at h1 h2
  rw [runFoldsAux_uw] at h1
  cases haux : runFoldsAux epochs patience false lr0 folds 0 with
  | error msg =>
    rw [haux] at h1
    exact Except.noConfusion h1
  | ok rs =>
    rw [haux] at h1 h2
    injection h1 with h1'
    injection h2 with h2'
    subst h1'
    subst h2'
    refine ⟨?_, rfl, rfl, rfl, rfl, rfl⟩
    simp

/-- Witness for the amended C7 on the concrete one-fold, one-epoch run. -/
theorem telemetry_backend_amended_witness :
    train [wEvC] 1 1 true 1 = .ok wRun1 ∧
    (wRun1.events = wRun2.events ++
      [TelemetryEvent.runSummary wRun2.avg_val_acc wRun2.avg_val_f1 wRun2.avg_val_recall
        wRun2.avg_val_precision] ∧
     wRun1.fold_results = wRun2.fold_results ∧
     wRun1.avg_val_acc = wRun2.avg_val_acc ∧
     wRun1.avg_val_f1 = wRun2.avg_val_f1 ∧
     wRun1.avg_val_recall = wRun2.avg_val_recall ∧
     wRun1.avg_val_precision = wRun2.avg_val_precision) :=
  ⟨rfl, telemetry_backend_amended [wEvC] 1 1 1 wRun1 wRun2 rfl rfl⟩

/-- A completed multi-architecture loop trains the architectures in the
given order, once each. -/
theorem mainAllAux_fields (oracle : String → List (ℕ → EpochEval)) (epochs patience : ℕ)
    (uw : Bool) (lr0 : ℚ) :
    ∀ (names : List String) (runs : List (String × RunResult)),
      mainAllAux oracle epochs patience uw lr0 names = .ok runs →
      runs.map Prod.fst = names ∧
      ∀ pr ∈ runs, train (oracle pr.1) epochs patience uw lr0 = .ok pr.2
  | [], runs => by
    intro h
    injection h with h'
    subst h'
    exact ⟨rfl, fun pr hpr => absurd hpr (List.not_mem_nil pr)⟩
  | name :: rest, runs => by
    intro h
    simp only [mainAllAux] at h
    cases htr : train (oracle name) epochs patience uw lr0 with
    | error msg => rw [htr] at h; exact Except.noConfusion h
    | ok r =>
      rw [htr] at h
      cases haux : mainAllAux oracle epochs patience uw lr0 rest with
      | error msg => rw [haux] at h; exact Except.noConfusion h
      | ok rs =>
        rw [haux] at h
        injection h with h'
        subst h'
        obtain ⟨hmap, hmem⟩ := mainAllAux_fields oracle epochs patience uw lr0 rest rs haux
        refine ⟨by simp [hmap], ?_⟩
        intro pr hpr
        rcases List.mem_cons.mp hpr with rfl | hpr'
        · exact htr
        · exact hmem pr hpr'

/-- The p-value surrogate always lies in the unit interval. -/
theorem pSurrogate_mem (f : ℚ) : 0 ≤ pSurrogate f ∧ pSurrogate f ≤ 1 := by
  have h0 : (0 : ℚ) ≤ max 0 f := le_max_left 0 f
  unfold pSurrogate
  constructor
  · exact div_nonneg (by norm_num) (by linarith)
  · rw [div_le_one (by linarith)]
    linarith

/-- The ANOVA verdict is one of the two fixed strings. -/
theorem perform_anova_verdict (accuracies : List (String × List (List ℚ))) :
    (perform_anova accuracies).2.2 = "Significant difference between models (p < 0.05)" ∨
    (perform_anova accuracies).2.2 = "No significant difference between models (p >= 0.05)" := by
  unfold perform_anova
  dsimp only
  split_ifs
  · exact Or.inl rfl
  · exact Or.inr rfl

/-- Claim C8: in "train all" mode the training procedure runs exactly once
per architecture name of the fixed supported set (seven distinct names, in
order), and the ANOVA is then performed over the accuracy samples collected
per architecture as the full per-fold, per-epoch validation-accuracy
histories — pooled across folds and epochs inside `perform_anova` — yielding
an F-statistic, a p-value in [0, 1] and a verdict string
(`src/train.py` lines 265-275, 303-317). -/
theorem train_all_anova_spec (oracle : String → List (ℕ → EpochEval)) (epochs patience : ℕ)
    (uw : Bool) (lr0 : ℚ) (res : AllResult)
    (h : mainAll oracle epochs patience uw lr0 = .ok res) :
    res.runs.map Prod.fst = all_models ∧
    all_models.Nodup ∧
    all_models.length = 7 ∧
    (∀ pr ∈ res.runs, train (oracle pr.1) epochs patience uw lr0 = .ok pr.2) ∧
    res.accuracies =
      res.runs.map (fun pr => (pr.1, pr.2.fold_results.map (fun fr => fr.val_accs))) ∧
    (res.f_stat, res.p_value, res.anova_result) = perform_anova res.accuracies ∧
    0 ≤ res.p_value ∧ res.p_value ≤ 1 ∧
    (res.anova_result = "Significant difference between models (p < 0.05)" ∨
      res.anova_result = "No significant difference between models (p >= 0.05)") := by
  unfold mainAll at h
  cases haux : mainAllAux oracle epochs patience uw lr0 all_models with
  | error msg => rw [haux] at h; exact Except.noConfusion h
  | ok runs =>
    rw [haux] at h
    injection h with h'
    subst h'
    obtain ⟨hmap, hmem⟩ := mainAllAux_fields oracle epochs patience uw lr0 all_models runs haux
    refine ⟨hmap, by decide, rfl, hmem, rfl, rfl, ?_, ?_, ?_⟩
    · exact (pSurrogate_mem _).1
    · exact (pSurrogate_mem _).2
    · exact perform_anova_verdict _

/-- Witness for C8 on the concrete "train all" run with a constant oracle. -/
theorem train_all_anova_spec_witness :
    mainAll wOracle 1 1 false 1 = .ok wAllRes ∧
    (wAllRes.runs.map Prod.fst = all_models ∧
     all_models.Nodup ∧
     all_models.length = 7 ∧
     (∀ pr ∈ wAllRes.runs, train (wOracle pr.1) 1 1 false 1 = .ok pr.2) ∧
     wAllRes.accuracies =
       wAllRes.runs.map (fun pr => (pr.1, pr.2.fold_results.map (fun fr => fr.val_accs))) ∧
     (wAllRes.f_stat, wAllRes.p_value, wAllRes.anova_result) = perform_anova wAllRes.accuracies ∧
     0 ≤ wAllRes.p_value ∧ wAllRes.p_value ≤ 1 ∧
     (wAllRes.anova_result = "Significant difference between models (p < 0.05)" ∨
       wAllRes.anova_result = "No significant difference between models (p >= 0.05)")) :=
  ⟨rfl, train_all_anova_spec wOracle 1 1 false 1 wAllRes rfl⟩

end CoffeeTrain
